import Mathlib

/-!
# Verification of the tag-partitioned log system (TagPartitionedLogSystem.actor.cpp)

This development shallowly embeds the core data model and operations of
`src/fdbserver/TagPartitionedLogSystem.actor.cpp` and proves properties of the
embedded definitions.

Conventions:
* `Version` is `Int` (the C++ `int64_t Version`; no overflow occurs in the
  modelled arithmetic).
* `UID`, `Tag`, `LocalityData` are opaque identifiers modelled as `Nat`
  (`LocalityData` is compared only through the pluggable replication policy,
  so a single zone identifier suffices).
* An `AsyncVar<OptionalInterface<TLogInterface>>` handle is modelled by its
  current contents, an `OptionalInterface`.
* Fallible C++ code (`throw` / `ASSERT`) is modelled with `Except Error` or an
  explicit `Option Error` component.
-/

abbrev Version := Int
abbrev UID := Nat
abbrev Tag := Nat
abbrev LocalityData := Nat

/-- The error codes that appear in the modelled code paths. -/
inductive Error where
  | broken_promise
  | actor_cancelled
  | tlog_stopped
  | master_tlog_failed
  | master_recovery_failed
  | internal_error
  | other (code : Nat)
deriving DecidableEq, Repr

/-- A `TLogInterface`: stable id plus the locality it reports.  The RPC
endpoints themselves are external collaborators and are not part of the
state that the modelled code inspects. -/
structure TLogInterface where
  uid : UID
  locality : LocalityData
deriving DecidableEq, Repr

/-- `OptionalInterface<TLogInterface>`: either a live interface or just the
identity of a TLog that is not currently connected. -/
structure OptionalInterface where
  ident : UID
  interf : Option TLogInterface
deriving DecidableEq, Repr

/-- `OptionalInterface::id()`: the interface's id when present, else the
stored identity. -/
def OptionalInterface.id (o : OptionalInterface) : UID :=
  match o.interf with
  | some i => i.uid
  | none => o.ident

/-- Modelled from the spec: the pluggable replication-policy evaluator
(`IRepPolicyRef` together with `validate` on a `LocalityGroup` and the free
function `validateAllCombinations` from `fdbrpc/ReplicationUtils`, which are
external collaborators, not part of the translated source).  `validate group`
decides whether `group` satisfies the policy; `validateAllCombinations
unresponsive available antiQuorum` decides whether every anti-quorum-sized
combination of the unresponsive set, together with the available set, can
still satisfy the policy. -/
structure ReplicationPolicy where
  validate : List LocalityData → Bool
  validateAllCombinations : List LocalityData → List LocalityData → Nat → Bool

/-- The status of a flow `Future<Void>`, as far as the modelled code
observes it: default-constructed (`!isValid()`), outstanding, ready with a
value, or ready with an error. `isReady()` is true for both `ready` and
`errored`. -/
inductive FutureStatus where
  | invalid
  | pending
  | ready
  | errored (e : Error)

def FutureStatus.isValid : FutureStatus → Bool
  | .invalid => false
  | _ => true

def FutureStatus.isReadyF : FutureStatus → Bool
  | .ready => true
  | .errored _ => true
  | _ => false

def FutureStatus.errorOf : FutureStatus → Option Error
  | .errored e => some e
  | _ => none

/-- `OldLogData` (struct at the top of the source file): a frozen TLog set
with its configuration and the first version not in that epoch. -/
structure OldLogData where
  logServers : List OptionalInterface
  tLogWriteAntiQuorum : Nat
  tLogReplicationFactor : Nat
  tLogLocalities : List LocalityData
  tLogPolicy : ReplicationPolicy
  epochEnd : Version

/-- The log-system portion of one old entry of `DBCoreState`
(`oldTLogData[i]`), which stores TLogs by `UID`. -/
structure OldTLogCoreData where
  tLogs : List UID
  tLogWriteAntiQuorum : Nat
  tLogReplicationFactor : Nat
  tLogPolicy : ReplicationPolicy
  tLogLocalities : List LocalityData
  epochEnd : Version

/-- The log-system portion of `DBCoreState`. -/
structure DBCoreState where
  tLogs : List UID
  oldTLogData : List OldTLogCoreData
  tLogWriteAntiQuorum : Nat
  tLogReplicationFactor : Nat
  tLogPolicy : ReplicationPolicy
  tLogLocalities : List LocalityData
  logSystemType : Int

/-- One old entry of `LogSystemConfig` (`OldTLogConf`), which stores TLogs as
optional interfaces. -/
structure OldTLogConf where
  tLogs : List OptionalInterface
  tLogWriteAntiQuorum : Nat
  tLogReplicationFactor : Nat
  tLogPolicy : ReplicationPolicy
  tLogLocalities : List LocalityData
  epochEnd : Version

/-- `LogSystemConfig`. -/
structure LogSystemConfig where
  logSystemType : Int
  tLogs : List OptionalInterface
  oldTLogs : List OldTLogConf
  tLogWriteAntiQuorum : Nat
  tLogReplicationFactor : Nat
  tLogPolicy : ReplicationPolicy
  tLogLocalities : List LocalityData

/-- The fields of `struct TagPartitionedLogSystem` that the modelled
operations read or write.  Each `AsyncVar` handle is represented by its
current contents.  `knownCommittedVersion` is default-initialised to `0`
(the C++ member is left uninitialised by the constructor; no modelled path
reads it before writing it). -/
structure LogSystem where
  logServers : List OptionalInterface
  oldLogData : List OldLogData
  tLogWriteAntiQuorum : Nat
  tLogReplicationFactor : Nat
  tLogPolicy : ReplicationPolicy
  tLogLocalities : List LocalityData
  logSystemType : Int
  recoveryComplete : FutureStatus
  epochEndVersion : Option Version
  knownCommittedVersion : Version
  epochEndTags : List Tag

namespace TagPartitionedLogSystem

/-- The log system built by the body of
`TagPartitionedLogSystem::fromLogSystemConfig` (lines 119-144): it copies
the current TLog handles, the old-epoch data and the configuration fields;
its `recoveryComplete` future is the default-constructed (invalid) one. -/
def ofConfig (lsConf : LogSystemConfig) : LogSystem :=
  { logServers := lsConf.tLogs
    oldLogData := lsConf.oldTLogs.map (fun o =>
      { logServers := o.tLogs
        tLogWriteAntiQuorum := o.tLogWriteAntiQuorum
        tLogReplicationFactor := o.tLogReplicationFactor
        tLogPolicy := o.tLogPolicy
        tLogLocalities := o.tLogLocalities
        epochEnd := o.epochEnd })
    tLogWriteAntiQuorum := lsConf.tLogWriteAntiQuorum
    tLogReplicationFactor := lsConf.tLogReplicationFactor
    tLogPolicy := lsConf.tLogPolicy
    tLogLocalities := lsConf.tLogLocalities
    logSystemType := lsConf.logSystemType
    recoveryComplete := .invalid
    epochEndVersion := none
    knownCommittedVersion := 0
    epochEndTags := [] }

/-- `TagPartitionedLogSystem::fromLogSystemConfig` (lines 116-145 of the
source).  The leading `ASSERT( lsConf.logSystemType == 2 ||
(lsConf.logSystemType == 0 && !lsConf.tLogs.size()) )` is modelled as an
`internal_error` result (a failed `ASSERT` throws `internal_error`). -/
def fromLogSystemConfig (lsConf : LogSystemConfig) : Except Error LogSystem :=
  if lsConf.logSystemType = 2 ∨ (lsConf.logSystemType = 0 ∧ lsConf.tLogs = []) then
    .ok (ofConfig lsConf)
  else
    .error .internal_error

end TagPartitionedLogSystem

namespace ILogSystem

/-- `ILogSystem::fromLogSystemConfig` (lines 893-900): dispatch on
`logSystemType`.  Type `0` yields a null `Reference<ILogSystem>`, modelled as
`none`; type `2` builds a `TagPartitionedLogSystem`; anything else throws
`internal_error`. -/
def fromLogSystemConfig (conf : LogSystemConfig) : Except Error (Option LogSystem) :=
  if conf.logSystemType = 0 then
    .ok none
  else if conf.logSystemType = 2 then
    (TagPartitionedLogSystem.fromLogSystemConfig conf).map some
  else
    .error .internal_error

end ILogSystem

/-- A policy value used to build concrete inputs (an `AcrossAll`-style policy
that any group satisfies). -/
def trivialPolicy : ReplicationPolicy :=
  { validate := fun _ => true
    validateAllCombinations := fun _ _ _ => true }

/-- A zone-spanning policy: a group satisfies it iff it contains localities
from at least two distinct zones (the shape of `PolicyAcross(2, "zoneid")`). -/
def acrossTwoZones : ReplicationPolicy :=
  { validate := fun locs => decide (2 ≤ locs.dedup.length)
    validateAllCombinations := fun _ _ _ => true }

/-! ## Pop (`pop`, lines 293-303, and the `popFromLog` actor, lines 305-330)

Versions passed to `pop` are non-negative (they are popped commit versions),
so this part of the model uses `Nat`; the C++ guard `!upTo` is `upTo = 0`.
The `outstandingPops` map is an association list from `(log index, tag)` to
the target version; the C++ `std::map::operator[]` default-inserts `0`, and
no code path distinguishes an absent key from a key holding `0`, so lookup
returns `0` for absent keys. -/

abbrev PopMap := List ((Nat × Tag) × Nat)

/-- Write `v` at key `k` (insert or overwrite). -/
def popMapSet (m : PopMap) (k : Nat × Tag) (v : Nat) : PopMap :=
  if m.any (fun e => e.1 = k) then
    m.map (fun e => if e.1 = k then (k, v) else e)
  else
    m ++ [(k, v)]

/-- Lookup with the `std::map::operator[]` default of `0`. -/
def popMapGet (m : PopMap) (k : Nat × Tag) : Nat :=
  match m.find? (fun e => e.1 = k) with
  | some e => e.2
  | none => 0

namespace TagPartitionedLogSystem

/-- `TagPartitionedLogSystem::pop` (lines 293-303).  Returns the updated
`outstandingPops` map together with the list of keys for which a
`popFromLog` actor was spawned (`actors.add(popFromLog(...))`). -/
def pop (nLogs : Nat) (m : PopMap) (upTo : Nat) (tag : Tag) :
    PopMap × List (Nat × Tag) :=
  if nLogs = 0 ∨ upTo = 0 then (m, [])
  else
    (List.range nLogs).foldl
      (fun acc log =>
        let prev := popMapGet acc.1 (log, tag)
        (if prev < upTo then popMapSet acc.1 (log, tag) upTo else acc.1,
         if prev = 0 then acc.2 ++ [(log, tag)] else acc.2))
      (m, [])

end TagPartitionedLogSystem

/-- C9: `pop` with `upTo = 0`, or on a log system with no current TLogs,
returns immediately: the outstanding-pops map is unchanged and no pop task
is spawned (the guard `if (!logServers.size() || !upTo) return;`). -/
theorem pop_zero_or_no_logs_noop (nLogs : Nat) (m : PopMap) (upTo : Nat)
    (tag : Tag) (h : nLogs = 0 ∨ upTo = 0) :
    TagPartitionedLogSystem.pop nLogs m upTo tag = (m, []) := by
  simp [TagPartitionedLogSystem.pop, h]

/-- Witness for C9: `pop(upTo = 0)` on a three-TLog system with a non-empty
outstanding map changes nothing. -/
theorem pop_zero_or_no_logs_noop_witness :
    TagPartitionedLogSystem.pop 3 [((0, 7), 50)] 0 7 = ([((0, 7), 50)], []) :=
  pop_zero_or_no_logs_noop 3 [((0, 7), 50)] 0 7 (Or.inr rfl)

/-! ## The per-key pop coalescer (`popFromLog`, lines 305-330)

The claims about `popFromLog` are about interleavings of `pop` calls and the
steps of the (single-threaded, cooperatively scheduled) `popFromLog` actor
for one key `(log, tag)`.  The state below is the projection of the log
system onto one key; `outstanding = 0` means the key is absent.  The actor's
suspension points are the `delay(1.0)` (event `wake`) and the `popMessages`
RPC reply (events `replyOk` / `replyErr`); everything between two suspension
points runs atomically.

* `wake present`: the delay fires; `present` tells whether the TLog's
  interface is present at that moment.  The actor reads
  `to = outstandingPops[key]`; if `to <= last` it erases the key and exits;
  otherwise, if the interface is absent it exits without erasing; otherwise
  it sends `TLogPopRequest(to, tag)` and suspends on the reply.
* `replyOk`: the RPC succeeded; `last = to`, back to the delay.
* `replyErr`: a non-cancellation error; the actor exits leaving the key
  present (cancellation tears down the whole system and is out of scope).

`sentAll` records every `up_to` value ever sent to the TLog for this key;
`sentCur` records those sent by the task spawned most recently.
`doubleSpawn` records whether a `pop` call ever spawned a task while another
task for the same key was still running; the code would then run two actors
for one key, so `doubleSpawn = false` in every reachable state is the
"at most one pop task per key" claim.  Likewise, at most one RPC is in
flight exactly when the single task is in `waitingReply`. -/

inductive TaskPC where
  | sleeping
  | waitingReply (tv : Nat)
deriving DecidableEq, Repr

structure PopTask where
  pc : TaskPC
  last : Nat
deriving DecidableEq, Repr

structure PopKeyState where
  outstanding : Nat
  task : Option PopTask
  sentAll : List Nat
  sentCur : List Nat
  doubleSpawn : Bool
deriving DecidableEq, Repr

inductive PopEvent where
  | call (upTo : Nat)
  | wake (present : Bool)
  | replyOk
  | replyErr
deriving DecidableEq, Repr

/-- One scheduler step of the per-key system: a `pop` call restricted to
this key (lines 296-302 for one `log`), or one resumption of the
`popFromLog` actor. -/
def popStep (s : PopKeyState) : PopEvent → PopKeyState
  | .call upTo =>
    if upTo = 0 then s
    else
      let prev := s.outstanding
      let out2 := if prev < upTo then upTo else prev
      if prev = 0 then
        { s with outstanding := out2, task := some ⟨.sleeping, 0⟩, sentCur := [],
                 doubleSpawn := s.doubleSpawn || s.task.isSome }
      else
        { s with outstanding := out2 }
  | .wake present =>
    match s.task with
    | some ⟨.sleeping, last⟩ =>
      let tv := s.outstanding
      if tv ≤ last then { s with outstanding := 0, task := none }
      else if present = false then { s with task := none }
      else
        { s with task := some ⟨.waitingReply tv, last⟩,
                 sentAll := s.sentAll ++ [tv], sentCur := s.sentCur ++ [tv] }
    | _ => s
  | .replyOk =>
    match s.task with
    | some ⟨.waitingReply t, _⟩ => { s with task := some ⟨.sleeping, t⟩ }
    | _ => s
  | .replyErr =>
    match s.task with
    | some ⟨.waitingReply _, _⟩ => { s with task := none }
    | _ => s

/-- Initially the key is absent and no task runs. -/
def popKeyInit : PopKeyState :=
  { outstanding := 0, task := none, sentAll := [], sentCur := [], doubleSpawn := false }

/-- The per-key state after a sequence of scheduler events. -/
def popRun (evs : List PopEvent) : PopKeyState :=
  evs.foldl popStep popKeyInit

/-- The version up to which the current task is committed: its `last` while
sleeping, the in-flight `to` while waiting for an RPC reply. -/
def taskHigh : PopTask → Nat
  | ⟨.sleeping, last⟩ => last
  | ⟨.waitingReply t, _⟩ => t

/-- Inductive invariant of the per-key pop system. -/
def PopInv (s : PopKeyState) : Prop :=
  s.doubleSpawn = false ∧
  List.Chain' (fun a b => a < b) s.sentCur ∧
  ∀ tk, s.task = some tk →
    0 < s.outstanding ∧ taskHigh tk ≤ s.outstanding ∧
    (∀ x ∈ s.sentCur, x ≤ taskHigh tk) ∧
    ∀ t l, tk = ⟨.waitingReply t, l⟩ → l < t

lemma chain_lt_append_singleton {v : Nat} :
    ∀ l : List Nat, List.Chain' (fun a b => a < b) l →
      (∀ x ∈ l, x < v) → List.Chain' (fun a b => a < b) (l ++ [v]) := by
  intro l
  induction l with
  | nil => intro _ _; simp
  | cons a t ih =>
    intro h hall
    cases t with
    | nil =>
      simp only [List.cons_append, List.nil_append]
      exact List.chain'_cons.mpr ⟨hall a (by simp), List.chain'_singleton v⟩
    | cons b t2 =>
      have h2 := List.chain'_cons.mp h
      have hin := ih h2.2 (fun x hx => hall x (List.mem_cons_of_mem a hx))
      simp only [List.cons_append] at hin ⊢
      exact List.chain'_cons.mpr ⟨h2.1, hin⟩

lemma popInv_init : PopInv popKeyInit := by
  refine ⟨rfl, by simp [popKeyInit], ?_⟩
  intro tk htk
  simp [popKeyInit] at htk

lemma popInv_step (s : PopKeyState) (e : PopEvent) (h : PopInv s) :
    PopInv (popStep s e) := by
  obtain ⟨hds, hch, htk⟩ := h
  cases e with
  | call upTo =>
    by_cases h0 : upTo = 0
    · simpa [popStep, h0] using ⟨hds, hch, htk⟩
    · by_cases hprev : s.outstanding = 0
      · have hnone : s.task = none := by
          cases htask : s.task with
          | none => rfl
          | some tk => exact absurd ((htk tk htask).1) (by simp [hprev])
        have hlt : s.outstanding < upTo := by omega
        refine ⟨?_, ?_, ?_⟩
        · simp [popStep, h0, hprev, hnone, hds]
        · simp [popStep, h0, hprev]
        · intro tk htask2
          simp [popStep, h0, hprev] at htask2
          subst htask2
          refine ⟨?_, ?_, ?_, ?_⟩
          · simp [popStep, h0, hprev]
            split <;> omega
          · simp [popStep, h0, hprev, taskHigh]
          · simp [popStep, h0, hprev]
          · intro t l hwr
            simp at hwr

      · refine ⟨?_, ?_, ?_⟩
        · simpa [popStep, h0, hprev] using hds
        · simpa [popStep, h0, hprev] using hch
        · intro tk htask2
          simp [popStep, h0, hprev] at htask2
          obtain ⟨h1, h2, h3, h4⟩ := htk tk htask2
          refine ⟨?_, ?_, ?_, ?_⟩
          · simp [popStep, h0, hprev]
            split <;> omega
          · simp [popStep, h0, hprev]
            split <;> omega
          · simpa [popStep, h0, hprev] using h3
          · exact h4
  | wake present =>
    cases htask : s.task with
    | none =>
      simpa [popStep, htask] using ⟨hds, hch, htk⟩
    | some tk =>
      obtain ⟨pc, last⟩ := tk
      cases pc with
      | sleeping =>
        obtain ⟨hpos, hhigh, hsent, _⟩ := htk ⟨.sleeping, last⟩ htask
        by_cases hle : s.outstanding ≤ last
        · refine ⟨?_, ?_, ?_⟩
          · simpa [popStep, htask, hle] using hds
          · simpa [popStep, htask, hle] using hch
          · intro tk2 htask2
            simp [popStep, htask, hle] at htask2
        · by_cases hpr : present = false
          · refine ⟨?_, ?_, ?_⟩
            · simpa [popStep, htask, hle, hpr] using hds
            · simpa [popStep, htask, hle, hpr] using hch
            · intro tk2 htask2
              simp [popStep, htask, hle, hpr] at htask2
          · refine ⟨?_, ?_, ?_⟩
            · simpa [popStep, htask, hle, hpr] using hds
            · simp only [popStep, htask, hle, if_false, hpr]
              simp only [taskHigh] at hsent
              exact chain_lt_append_singleton _ hch
                (fun x hx => lt_of_le_of_lt (hsent x hx) (by omega))
            · intro tk2 htask2
              simp [popStep, htask, hle, hpr] at htask2
              subst htask2
              refine ⟨?_, ?_, ?_, ?_⟩
              · simpa [popStep, htask, hle, hpr] using hpos
              · simp [popStep, htask, hle, hpr, taskHigh]
              · intro x hx
                simp [popStep, htask, hle, hpr, taskHigh] at hx ⊢
                rcases hx with hx | hx
                · simp only [taskHigh] at hsent
                  exact le_of_lt (lt_of_le_of_lt (hsent x hx) (by omega))
                · omega
              · intro t l hwr
                simp at hwr
                omega
      | waitingReply tv =>
        simpa [popStep, htask] using ⟨hds, hch, htk⟩
  | replyOk =>
    cases htask : s.task with
    | none =>
      simpa [popStep, htask] using ⟨hds, hch, htk⟩
    | some tk =>
      obtain ⟨pc, last⟩ := tk
      cases pc with
      | sleeping =>
        simpa [popStep, htask] using ⟨hds, hch, htk⟩
      | waitingReply tv =>
        obtain ⟨hpos, hhigh, hsent, _⟩ := htk ⟨.waitingReply tv, last⟩ htask
        refine ⟨?_, ?_, ?_⟩
        · simpa [popStep, htask] using hds
        · simpa [popStep, htask] using hch
        · intro tk2 htask2
          simp [popStep, htask] at htask2
          subst htask2
          refine ⟨?_, ?_, ?_, ?_⟩
          · simpa [popStep, htask] using hpos
          · simp only [taskHigh] at hhigh
            simpa [popStep, htask, taskHigh] using hhigh
          · intro x hx
            simp [popStep, htask] at hx
            simp only [taskHigh] at hsent ⊢
            exact hsent x hx
          · intro t l hwr
            simp at hwr
  | replyErr =>
    cases htask : s.task with
    | none =>
      simpa [popStep, htask] using ⟨hds, hch, htk⟩
    | some tk =>
      obtain ⟨pc, last⟩ := tk
      cases pc with
      | sleeping =>
        simpa [popStep, htask] using ⟨hds, hch, htk⟩
      | waitingReply tv =>
        refine ⟨?_, ?_, ?_⟩
        · simpa [popStep, htask] using hds
        · simpa [popStep, htask] using hch
        · intro tk2 htask2
          simp [popStep, htask] at htask2

lemma popInv_run (evs : List PopEvent) : PopInv (popRun evs) := by
  have main : ∀ (l : List PopEvent) (s : PopKeyState), PopInv s →
      PopInv (l.foldl popStep s) := by
    intro l
    induction l with
    | nil => intro s hs; simpa using hs
    | cons e t ih =>
      intro s hs
      simpa [List.foldl_cons] using ih _ (popInv_step s e hs)
  exact main evs popKeyInit popInv_init

/-- C5 (amended): for every reachable per-key state `s` of the pop
coalescer:
* no `pop` call ever spawns a second task while one is running
  (`doubleSpawn = false`), so there is at most one pop task per key and —
  since that single task waits for each `TLogPopRequest` reply before
  sending the next — at most one in-flight pop RPC;
* the up-to values sent by the task spawned when the key was last created
  are strictly increasing (globally, across key re-creations, they need not
  be: see the counterexample);
* while the key is present, a `pop(x)` with `x` at or below the outstanding
  value (in particular at or below the last sent value) is a complete
  no-op and triggers no RPC;
* every `pop(x)` call leaves `outstanding = max(previous, x)`, and does not
  spawn a task when the key was present;
* the key is erased exactly when the task wakes and finds all pending
  advances drained (`outstanding ≤ last`), and the task exits then. -/
theorem popFromLog_coalescing (evs : List PopEvent) (s : PopKeyState)
    (hs : popRun evs = s) :
    s.doubleSpawn = false ∧
    List.Chain' (fun a b => a < b) s.sentCur ∧
    (∀ x, 0 < s.outstanding → x ≤ s.outstanding → popStep s (.call x) = s) ∧
    (∀ x, (popStep s (.call x)).outstanding = max s.outstanding x) ∧
    (∀ x, s.outstanding ≠ 0 → (popStep s (.call x)).task = s.task) ∧
    (∀ e, s.outstanding ≠ 0 → (popStep s e).outstanding = 0 →
      ∃ pr l, e = .wake pr ∧ s.task = some ⟨.sleeping, l⟩ ∧ s.outstanding ≤ l ∧
        (popStep s e).task = none) ∧
    (∀ pr l, s.task = some ⟨.sleeping, l⟩ → s.outstanding ≤ l →
      (popStep s (.wake pr)).outstanding = 0 ∧ (popStep s (.wake pr)).task = none) := by
  subst hs
  obtain ⟨hds, hch, htk⟩ := popInv_run evs
  set s := popRun evs with hsdef
  refine ⟨hds, hch, ?_, ?_, ?_, ?_, ?_⟩
  · intro x hpos hle
    by_cases hx : x = 0
    · simp [popStep, hx]
    · have h1 : ¬ s.outstanding = 0 := by omega
      have h2 : ¬ s.outstanding < x := by omega
      simp [popStep, hx, h1, h2]
  · intro x
    by_cases hx : x = 0
    · simp [popStep, hx]
    · by_cases h1 : s.outstanding = 0
      · simp [popStep, hx, h1]
      · simp [popStep, hx, h1]
        split <;> omega
  · intro x h1
    by_cases hx : x = 0
    · simp [popStep, hx]
    · simp [popStep, hx, h1]
  · intro e h1 h2
    cases e with
    | call x =>
      exfalso
      by_cases hx : x = 0
      · simp [popStep, hx] at h2
        exact h1 h2
      · by_cases hp : s.outstanding = 0
        · exact h1 hp
        · simp [popStep, hx, hp] at h2
          split at h2 <;> omega
    | wake pr =>
      cases htask : s.task with
      | none =>
        exfalso
        simp [popStep, htask] at h2
        exact h1 h2
      | some tk =>
        obtain ⟨pc, last⟩ := tk
        cases pc with
        | sleeping =>
          by_cases hle : s.outstanding ≤ last
          · exact ⟨pr, last, rfl, rfl, hle, by simp [popStep, htask, hle]⟩
          · exfalso
            by_cases hpr : pr = false
            · simp [popStep, htask, hle, hpr] at h2
              exact h1 h2
            · simp [popStep, htask, hle, hpr] at h2
              exact h1 h2
        | waitingReply tv =>
          exfalso
          simp [popStep, htask] at h2
          exact h1 h2
    | replyOk =>
      exfalso
      cases htask : s.task with
      | none => simp [popStep, htask] at h2; exact h1 h2
      | some tk =>
        obtain ⟨pc, last⟩ := tk
        cases pc with
        | sleeping => simp [popStep, htask] at h2; exact h1 h2
        | waitingReply tv => simp [popStep, htask] at h2; exact h1 h2
    | replyErr =>
      exfalso
      cases htask : s.task with
      | none => simp [popStep, htask] at h2; exact h1 h2
      | some tk =>
        obtain ⟨pc, last⟩ := tk
        cases pc with
        | sleeping => simp [popStep, htask] at h2; exact h1 h2
        | waitingReply tv => simp [popStep, htask] at h2; exact h1 h2
  · intro pr l htask hle
    constructor
    · simp [popStep, htask, hle]
    · simp [popStep, htask, hle]

/-- Witness for C5: after `pop(5)` creates the key, a later `pop(3)`
(3 at or below the outstanding value 5) changes nothing. -/
theorem popFromLog_coalescing_witness :
    popStep
      { outstanding := 5, task := some ⟨.sleeping, 0⟩, sentAll := [], sentCur := [],
        doubleSpawn := false } (.call 3) =
      { outstanding := 5, task := some ⟨.sleeping, 0⟩, sentAll := [], sentCur := [],
        doubleSpawn := false } :=
  (popFromLog_coalescing [.call 5]
      { outstanding := 5, task := some ⟨.sleeping, 0⟩, sentAll := [], sentCur := [],
        doubleSpawn := false } rfl).2.2.1 3 (by decide) (by decide)

/-- Counterexample to C5 as stated: the up-to values sent to a TLog for one
key are NOT strictly increasing over the key's whole history, and a later
`pop(x)` with `x` below the last sent value CAN cause a further RPC.  After
`pop(50)` is sent and the task drains and erases the key, a later `pop(40)`
re-creates the key and sends `pop(40)` — the TLog receives 50 and then 40. -/
theorem popFromLog_not_globally_monotone :
    (popRun [.call 50, .wake true, .replyOk, .wake true, .call 40, .wake true]).sentAll
        = [50, 40] ∧
      ¬ List.Chain' (fun a b => a < b)
        (popRun [.call 50, .wake true, .replyOk, .wake true, .call 40, .wake true]).sentAll := by
  constructor
  · rfl
  · intro h
    rw [show (popRun [.call 50, .wake true, .replyOk, .wake true, .call 40, .wake true]).sentAll
        = [50, 40] from rfl] at h
    simp [List.chain'_cons] at h

/-! ## `toCoreState` (lines 179-209) and the core-state round trip -/

/-- The collection loop of `toCoreState` (lines 185-188): for each current
log server, push `t->get().id()` and then `t->get().interf().locality`.
`interf()` asserts that the interface is present; a failed `ASSERT` throws
`internal_error`, after the id was already pushed.  Returns the collected
ids, the collected localities, and the error if one was thrown. -/
def collectLogIds : List OptionalInterface → List UID × List LocalityData × Option Error
  | [] => ([], [], none)
  | o :: rest =>
    match o.interf with
    | none => ([o.id], [], some .internal_error)
    | some i =>
      let r := collectLogIds rest
      (o.id :: r.1, i.locality :: r.2.1, r.2.2)

/-- One old entry as written by `toCoreState` (lines 193-201); old-epoch ids
are read with the total `id()`, so no presence is required. -/
def oldToCore (o : OldLogData) : OldTLogCoreData :=
  { tLogs := o.logServers.map OptionalInterface.id
    tLogWriteAntiQuorum := o.tLogWriteAntiQuorum
    tLogReplicationFactor := o.tLogReplicationFactor
    tLogPolicy := o.tLogPolicy
    tLogLocalities := o.tLogLocalities
    epochEnd := o.epochEnd }

namespace TagPartitionedLogSystem

/-- `TagPartitionedLogSystem::toCoreState` (lines 179-209).  `s0` is the
`DBCoreState&` output parameter as it stood before the call; the result is
the output parameter after the call, together with the thrown error if any.
If `recoveryComplete.isValid() && recoveryComplete.isError()` the stored
error is thrown before any field is written.  Old TLog data is written only
while `!recoveryComplete.isValid() || !recoveryComplete.isReady()`.  (The
C++ method also rewrites the member `tLogLocalities` to the list of
interface-reported localities and then copies that member into the output;
the output's `tLogLocalities` below is that derived list.) -/
def toCoreState (ls : LogSystem) (s0 : DBCoreState) : DBCoreState × Option Error :=
  match ls.recoveryComplete.errorOf with
  | some e => (s0, some e)
  | none =>
    let c := collectLogIds ls.logServers
    match c.2.2 with
    | some e => ({ s0 with tLogs := c.1 }, some e)
    | none =>
      ({ tLogs := c.1
         oldTLogData :=
           if !ls.recoveryComplete.isValid || !ls.recoveryComplete.isReadyF then
             ls.oldLogData.map oldToCore
           else []
         tLogWriteAntiQuorum := ls.tLogWriteAntiQuorum
         tLogReplicationFactor := ls.tLogReplicationFactor
         tLogPolicy := ls.tLogPolicy
         tLogLocalities := c.2.1
         logSystemType := ls.logSystemType }, none)

end TagPartitionedLogSystem

/-- C10: if the stored `recoveryComplete` future is valid and has failed
with an error, `toCoreState` throws that error before writing any field:
the output state comes back unchanged. -/
theorem toCoreState_error_short_circuit (ls : LogSystem) (s0 : DBCoreState)
    (e : Error) (h : ls.recoveryComplete = .errored e) :
    TagPartitionedLogSystem.toCoreState ls s0 = (s0, some e) := by
  simp [TagPartitionedLogSystem.toCoreState, h, FutureStatus.errorOf]

/-- A concrete log system whose recovery future failed, for the C10
witness. -/
def lsFailedRecovery : LogSystem :=
  { logServers := [{ ident := 1, interf := some { uid := 1, locality := 0 } }]
    oldLogData := []
    tLogWriteAntiQuorum := 0
    tLogReplicationFactor := 1
    tLogPolicy := trivialPolicy
    tLogLocalities := [0]
    logSystemType := 2
    recoveryComplete := .errored .master_tlog_failed
    epochEndVersion := none
    knownCommittedVersion := 0
    epochEndTags := [] }

/-- An arbitrary pre-existing output `DBCoreState`. -/
def sampleCoreState : DBCoreState :=
  { tLogs := [9]
    oldTLogData := []
    tLogWriteAntiQuorum := 3
    tLogReplicationFactor := 4
    tLogPolicy := trivialPolicy
    tLogLocalities := [5]
    logSystemType := 0 }

/-- Witness for C10. -/
theorem toCoreState_error_short_circuit_witness :
    TagPartitionedLogSystem.toCoreState lsFailedRecovery sampleCoreState =
      (sampleCoreState, some .master_tlog_failed) :=
  toCoreState_error_short_circuit lsFailedRecovery sampleCoreState
    .master_tlog_failed rfl

/-- Modelled from the spec: reading the log-system portion of a persisted
`DBCoreState` back as a `LogSystemConfig` (§6 of the spec lists the field
correspondence; the glue that performs this read-back lives outside this
source file).  TLogs recorded by `UID` become id-only optional interfaces,
exactly the reconstruction `epochEnd` performs at lines 562 and 571
(`OptionalInterface<TLogInterface>(prevState.tLogs[i])`). -/
def coreStateToConfig (cs : DBCoreState) : LogSystemConfig :=
  { logSystemType := cs.logSystemType
    tLogs := cs.tLogs.map (fun u => { ident := u, interf := none })
    oldTLogs := cs.oldTLogData.map (fun o =>
      { tLogs := o.tLogs.map (fun u => { ident := u, interf := none })
        tLogWriteAntiQuorum := o.tLogWriteAntiQuorum
        tLogReplicationFactor := o.tLogReplicationFactor
        tLogPolicy := o.tLogPolicy
        tLogLocalities := o.tLogLocalities
        epochEnd := o.epochEnd })
    tLogWriteAntiQuorum := cs.tLogWriteAntiQuorum
    tLogReplicationFactor := cs.tLogReplicationFactor
    tLogPolicy := cs.tLogPolicy
    tLogLocalities := cs.tLogLocalities }

lemma collectLogIds_all_present :
    ∀ l : List OptionalInterface, (∀ o ∈ l, o.interf.isSome) →
      collectLogIds l =
        (l.map OptionalInterface.id,
         l.map (fun o => (o.interf.map (fun i => i.locality)).getD 0),
         none) := by
  intro l
  induction l with
  | nil => intro _; rfl
  | cons o rest ih =>
    intro h
    obtain ⟨i, hi⟩ := Option.isSome_iff_exists.mp (h o (by simp))
    have hrest := ih (fun x hx => h x (List.mem_cons_of_mem o hx))
    simp [collectLogIds, hi, hrest]

/-- C7 (amended): for every log system whose recovery is not yet complete
(`recoveryComplete` invalid or still outstanding), whose current interfaces
are all present, and whose `tLogLocalities` member matches the localities
reported by those interfaces (the consistency `toCoreState` itself
re-establishes), with `logSystemType = 2`: `toCoreState` followed by
`fromLogSystemConfig` on the resulting configuration reproduces the
current-epoch and old-epoch structure — the ordered current TLog
identities, replication factor, write anti-quorum, policy, localities and
log-system type, and the ordered old-epoch entries with their TLog
identities, replication factor, write anti-quorum, policy, localities and
epoch_end.  (When recovery IS complete, the old epochs are deliberately
dropped: see the counterexample.) -/
theorem toCoreState_fromLogSystemConfig_roundtrip (ls : LogSystem)
    (s0 : DBCoreState)
    (hrc : ls.recoveryComplete = .invalid ∨ ls.recoveryComplete = .pending)
    (hpres : ∀ o ∈ ls.logServers, o.interf.isSome)
    (hloc : ls.tLogLocalities =
      ls.logServers.map (fun o => (o.interf.map (fun i => i.locality)).getD 0))
    (htype : ls.logSystemType = 2) :
    ∃ cs ls2,
      TagPartitionedLogSystem.toCoreState ls s0 = (cs, none) ∧
      TagPartitionedLogSystem.fromLogSystemConfig (coreStateToConfig cs) = .ok ls2 ∧
      ls2.logServers.map OptionalInterface.id =
        ls.logServers.map OptionalInterface.id ∧
      ls2.tLogReplicationFactor = ls.tLogReplicationFactor ∧
      ls2.tLogWriteAntiQuorum = ls.tLogWriteAntiQuorum ∧
      ls2.tLogPolicy = ls.tLogPolicy ∧
      ls2.tLogLocalities = ls.tLogLocalities ∧
      ls2.logSystemType = ls.logSystemType ∧
      ls2.oldLogData.map (fun o => o.logServers.map OptionalInterface.id) =
        ls.oldLogData.map (fun o => o.logServers.map OptionalInterface.id) ∧
      ls2.oldLogData.map (fun o =>
          (o.tLogWriteAntiQuorum, o.tLogReplicationFactor, o.tLogLocalities,
            o.epochEnd)) =
        ls.oldLogData.map (fun o =>
          (o.tLogWriteAntiQuorum, o.tLogReplicationFactor, o.tLogLocalities,
            o.epochEnd)) ∧
      ls2.oldLogData.map (fun o => o.tLogPolicy) =
        ls.oldLogData.map (fun o => o.tLogPolicy) := by
  have hc := collectLogIds_all_present ls.logServers hpres
  have hcs : TagPartitionedLogSystem.toCoreState ls s0 =
      ({ tLogs := ls.logServers.map OptionalInterface.id
         oldTLogData := ls.oldLogData.map oldToCore
         tLogWriteAntiQuorum := ls.tLogWriteAntiQuorum
         tLogReplicationFactor := ls.tLogReplicationFactor
         tLogPolicy := ls.tLogPolicy
         tLogLocalities :=
           ls.logServers.map (fun o => (o.interf.map (fun i => i.locality)).getD 0)
         logSystemType := ls.logSystemType }, none) := by
    rcases hrc with h | h <;>
      simp [TagPartitionedLogSystem.toCoreState, h, FutureStatus.errorOf, hc,
        FutureStatus.isValid, FutureStatus.isReadyF]
  refine ⟨_, TagPartitionedLogSystem.ofConfig (coreStateToConfig
      ({ tLogs := ls.logServers.map OptionalInterface.id
         oldTLogData := ls.oldLogData.map oldToCore
         tLogWriteAntiQuorum := ls.tLogWriteAntiQuorum
         tLogReplicationFactor := ls.tLogReplicationFactor
         tLogPolicy := ls.tLogPolicy
         tLogLocalities :=
           ls.logServers.map (fun o => (o.interf.map (fun i => i.locality)).getD 0)
         logSystemType := ls.logSystemType } : DBCoreState)),
    hcs, ?_, ?_, ?_, ?_, ?_, ?_, ?_, ?_, ?_, ?_⟩
  · simp [TagPartitionedLogSystem.fromLogSystemConfig, coreStateToConfig, htype]
  · simp [TagPartitionedLogSystem.ofConfig, coreStateToConfig, Function.comp,
      OptionalInterface.id]
  · rfl
  · rfl
  · rfl
  · simpa [TagPartitionedLogSystem.ofConfig, coreStateToConfig] using hloc.symm
  · rfl
  · simp [TagPartitionedLogSystem.ofConfig, coreStateToConfig, oldToCore,
      Function.comp, OptionalInterface.id]
  · simp [TagPartitionedLogSystem.ofConfig, coreStateToConfig, oldToCore,
      Function.comp]
  · simp [TagPartitionedLogSystem.ofConfig, coreStateToConfig, oldToCore,
      Function.comp]

/-- A concrete system with completed recovery and one old epoch, for the C7
counterexample and witness. -/
def lsWithOld (rc : FutureStatus) : LogSystem :=
  { logServers := [{ ident := 1, interf := some { uid := 1, locality := 0 } }]
    oldLogData := [{ logServers := [{ ident := 2, interf := none }]
                     tLogWriteAntiQuorum := 0
                     tLogReplicationFactor := 1
                     tLogLocalities := [0]
                     tLogPolicy := trivialPolicy
                     epochEnd := 10 }]
    tLogWriteAntiQuorum := 0
    tLogReplicationFactor := 1
    tLogPolicy := trivialPolicy
    tLogLocalities := [0]
    logSystemType := 2
    recoveryComplete := rc
    epochEndVersion := none
    knownCommittedVersion := 0
    epochEndTags := [] }

/-- Counterexample to C7 as stated: for a log system whose
`recoveryComplete` future is valid and ready, `toCoreState` intentionally
writes no old TLog data (line 191), so the round trip loses the old epoch:
the reconstructed system has 0 old entries where the original had 1. -/
theorem toCoreState_roundtrip_drops_old_after_recovery :
    (TagPartitionedLogSystem.fromLogSystemConfig
        (coreStateToConfig
          (TagPartitionedLogSystem.toCoreState (lsWithOld .ready) sampleCoreState).1)).map
        (fun l => l.oldLogData.length) = .ok 0 ∧
      (lsWithOld .ready).oldLogData.length = 1 :=
  ⟨rfl, rfl⟩

/-- Witness for C7: the round trip at a concrete not-yet-recovered system. -/
theorem toCoreState_fromLogSystemConfig_roundtrip_witness :
    ∃ cs ls2,
      TagPartitionedLogSystem.toCoreState (lsWithOld .pending) sampleCoreState =
        (cs, none) ∧
      TagPartitionedLogSystem.fromLogSystemConfig (coreStateToConfig cs) = .ok ls2 ∧
      ls2.logServers.map OptionalInterface.id =
        (lsWithOld .pending).logServers.map OptionalInterface.id ∧
      ls2.tLogReplicationFactor = (lsWithOld .pending).tLogReplicationFactor ∧
      ls2.tLogWriteAntiQuorum = (lsWithOld .pending).tLogWriteAntiQuorum ∧
      ls2.tLogPolicy = (lsWithOld .pending).tLogPolicy ∧
      ls2.tLogLocalities = (lsWithOld .pending).tLogLocalities ∧
      ls2.logSystemType = (lsWithOld .pending).logSystemType ∧
      ls2.oldLogData.map (fun o => o.logServers.map OptionalInterface.id) =
        (lsWithOld .pending).oldLogData.map
          (fun o => o.logServers.map OptionalInterface.id) ∧
      ls2.oldLogData.map (fun o =>
          (o.tLogWriteAntiQuorum, o.tLogReplicationFactor, o.tLogLocalities,
            o.epochEnd)) =
        (lsWithOld .pending).oldLogData.map (fun o =>
          (o.tLogWriteAntiQuorum, o.tLogReplicationFactor, o.tLogLocalities,
            o.epochEnd)) ∧
      ls2.oldLogData.map (fun o => o.tLogPolicy) =
        (lsWithOld .pending).oldLogData.map (fun o => o.tLogPolicy) :=
  toCoreState_fromLogSystemConfig_roundtrip (lsWithOld .pending) sampleCoreState
    (Or.inr rfl) (by decide) rfl rfl

/-! ## Push (`push`, lines 237-249, and `reportTLogCommitErrors`, lines 38-49) -/

/-- Whether an outcome is a success. -/
def isOkE : Except Error Unit → Bool
  | .ok _ => true
  | .error _ => false

/-- `reportTLogCommitErrors` (lines 38-49): await the commit reply; on
success return; a `broken_promise` error is translated to
`master_tlog_failed`; every other error — in particular `tlog_stopped` and
`actor_cancelled` — is re-thrown unchanged (non-cancelled, non-stopped
errors are additionally traced, which has no effect on the outcome). -/
def reportTLogCommitErrors : Except Error Unit → Except Error Unit
  | .ok _ => .ok ()
  | .error e => if e = .broken_promise then .error .master_tlog_failed else .error e

/-- Modelled from the spec: the flow `quorum(futures, n)` combinator used by
`push` ("Return when `N − anti_quorum` RPCs have completed successfully"):
the returned future completes successfully exactly when `n` of the given
futures have succeeded. -/
def quorumSucceeds (outcomes : List (Except Error Unit)) (n : Nat) : Bool :=
  decide (n ≤ (outcomes.filter isOkE).length)

namespace TagPartitionedLogSystem

/-- The per-TLog commit futures built by `push` (lines 239-247): one
`commit.getReply(TLogCommitRequest(...))` per current TLog, each wrapped in
`reportTLogCommitErrors`.  `outcomes loc` is the eventual outcome of TLog
`loc`'s commit RPC. -/
def pushCommitFutures (ls : LogSystem) (outcomes : Nat → Except Error Unit) :
    List (Except Error Unit) :=
  (List.range ls.logServers.length).map (fun loc => reportTLogCommitErrors (outcomes loc))

/-- The future returned by `push` (line 248):
`quorum( tLogCommitResults, tLogCommitResults.size() - tLogWriteAntiQuorum )`. -/
def pushSucceeds (ls : LogSystem) (outcomes : Nat → Except Error Unit) : Bool :=
  quorumSucceeds (pushCommitFutures ls outcomes)
    ((pushCommitFutures ls outcomes).length - ls.tLogWriteAntiQuorum)

end TagPartitionedLogSystem

lemma isOkE_reportTLogCommitErrors (x : Except Error Unit) :
    isOkE (reportTLogCommitErrors x) = isOkE x := by
  cases x with
  | ok v => rfl
  | error e =>
    by_cases h : e = .broken_promise <;> simp [reportTLogCommitErrors, isOkE, h]

/-- C3: `push` on a log system with `N` current TLogs dispatches a commit
RPC to every one of the `N` TLogs, and the returned future completes
successfully exactly when `N - anti_quorum` of those RPCs have succeeded;
inside each per-TLog wrapper, a broken-promise error becomes
`master_tlog_failed` while `tlog_stopped` and cancellation errors are
re-thrown unchanged. -/
theorem push_quorum_and_error_translation (ls : LogSystem)
    (outcomes : Nat → Except Error Unit) :
    (TagPartitionedLogSystem.pushCommitFutures ls outcomes).length =
      ls.logServers.length ∧
    TagPartitionedLogSystem.pushSucceeds ls outcomes =
      decide (ls.logServers.length - ls.tLogWriteAntiQuorum ≤
        ((List.range ls.logServers.length).filter
          (fun loc => isOkE (outcomes loc))).length) ∧
    reportTLogCommitErrors (.error .broken_promise) = .error .master_tlog_failed ∧
    reportTLogCommitErrors (.error .tlog_stopped) = .error .tlog_stopped ∧
    reportTLogCommitErrors (.error .actor_cancelled) = .error .actor_cancelled := by
  refine ⟨?_, ?_, rfl, rfl, rfl⟩
  · simp [TagPartitionedLogSystem.pushCommitFutures]
  · have hlen : (TagPartitionedLogSystem.pushCommitFutures ls outcomes).length =
        ls.logServers.length := by
      simp [TagPartitionedLogSystem.pushCommitFutures]
    have hfil : ((TagPartitionedLogSystem.pushCommitFutures ls outcomes).filter
          isOkE).length =
        ((List.range ls.logServers.length).filter
          (fun loc => isOkE (outcomes loc))).length := by
      simp only [TagPartitionedLogSystem.pushCommitFutures, List.filter_map,
        List.length_map]
      congr 1
      apply List.filter_congr
      intro x _
      simp [Function.comp, isOkE_reportTLogCommitErrors]
    simp [TagPartitionedLogSystem.pushSucceeds, quorumSucceeds, hlen, hfil]

/-! ## Peek (`peek`, lines 251-268) -/

/-- Which server list a cursor reads: the current epoch's `logServers` or
`oldLogData[i].logServers`. -/
inductive ServerSource where
  | current
  | old (i : Nat)
deriving DecidableEq, Repr

/-- The arguments `peek` passes to one `MergedPeekCursor` constructor call
(the cursor itself is an external collaborator; `peek` owns only which
servers, bounds and quorum parameters it passes). -/
structure MergedCursorSpec where
  source : ServerSource
  serverCount : Nat
  best : Int
  requiredCount : Int
  tag : Tag
  beginVersion : Version
  endVersion : Version
  parallelGetMore : Bool
  localities : List LocalityData
  policy : ReplicationPolicy
  replicationFactor : Nat

/-- The cursor `peek` returns: a single merged cursor, or a
`MultiCursor(cursors, epochEnds)` over merged cursors. -/
inductive PeekCursor where
  | merged (c : MergedCursorSpec)
  | multi (cursors : List MergedCursorSpec) (epochEnds : List Version)

/-- A default old-epoch entry (only used as the `getD` fallback under
in-bounds indices). -/
def defaultOldLogData : OldLogData :=
  { logServers := [], tLogWriteAntiQuorum := 0, tLogReplicationFactor := 0,
    tLogLocalities := [], tLogPolicy := trivialPolicy, epochEnd := 0 }

instance : Inhabited OldLogData := ⟨defaultOldLogData⟩

instance : Inhabited MergedCursorSpec :=
  ⟨{ source := .current, serverCount := 0, best := -1, requiredCount := 0,
     tag := 0, beginVersion := 0, endVersion := 0, parallelGetMore := false,
     localities := [], policy := trivialPolicy, replicationFactor := 0 }⟩

namespace TagPartitionedLogSystem

/-- `getPeekEnd` (lines 415-420): `getEnd() = epochEndVersion + 1` when the
epoch end is known, else `std::numeric_limits<Version>::max()`. -/
def getPeekEnd (ls : LogSystem) : Version :=
  match ls.epochEndVersion with
  | some v => v + 1
  | none => 2 ^ 63 - 1

/-- `bestLocationFor` (lines 422-424): `tag % logServers.size()` (only
called when the size is non-zero). -/
def bestLocationFor (ls : LogSystem) (tag : Tag) : Int :=
  ((tag % ls.logServers.length : Nat) : Int)

/-- The current-epoch `MergedPeekCursor` built by `peek` (lines 253-254 and
258-259): primary `logServers.size() ? bestLocationFor(tag) : -1`, required
count `logServers.size() + 1 - tLogReplicationFactor`. -/
def currentMergedCursor (ls : LogSystem) (tag : Tag) (b : Version) (par : Bool) :
    MergedCursorSpec :=
  { source := .current
    serverCount := ls.logServers.length
    best := if ls.logServers.length ≠ 0 then bestLocationFor ls tag else -1
    requiredCount := (ls.logServers.length : Int) + 1 - ls.tLogReplicationFactor
    tag := tag
    beginVersion := b
    endVersion := getPeekEnd ls
    parallelGetMore := par
    localities := ls.tLogLocalities
    policy := ls.tLogPolicy
    replicationFactor := ls.tLogReplicationFactor }

/-- The `MergedPeekCursor` over `oldLogData[i]` with lower bound `b`
(lines 261-262); `oldBestLocationFor` (lines 426-428) is
`tag % oldLogData[i].logServers.size()`. -/
def oldMergedCursor (o : OldLogData) (i : Nat) (tag : Tag) (b : Version)
    (par : Bool) : MergedCursorSpec :=
  { source := .old i
    serverCount := o.logServers.length
    best := if o.logServers.length ≠ 0 then ((tag % o.logServers.length : Nat) : Int)
            else -1
    requiredCount := (o.logServers.length : Int) + 1 - o.tLogReplicationFactor
    tag := tag
    beginVersion := b
    endVersion := o.epochEnd
    parallelGetMore := par
    localities := o.tLogLocalities
    policy := o.tLogPolicy
    replicationFactor := o.tLogReplicationFactor }

/-- The lower bound selected on line 262:
`i+1 == oldLogData.size() ? begin : std::max(oldLogData[i+1].epochEnd, begin)`,
expressed on the tail of the old-epoch list being processed. -/
def nextLowerBound (b : Version) : List OldLogData → Version
  | [] => b
  | o2 :: _ => max o2.epochEnd b

/-- The old-epoch segment loop of `peek` (lines 260-264), processing
`oldLogData` from index `i`: append one cursor per old epoch while
`begin < oldLogData[i].epochEnd`. -/
def peekOldCursors (b : Version) (tag : Tag) (par : Bool) :
    Nat → List OldLogData → List MergedCursorSpec
  | _, [] => []
  | i, o :: rest =>
    if b < o.epochEnd then
      oldMergedCursor o i tag (nextLowerBound b rest) par ::
        peekOldCursors b tag par (i + 1) rest
    else []

/-- The `epochEnds` accumulated by the same loop (line 263). -/
def peekOldEnds (b : Version) : List OldLogData → List Version
  | [] => []
  | o :: rest => if b < o.epochEnd then o.epochEnd :: peekOldEnds b rest else []

/-- `TagPartitionedLogSystem::peek` (lines 251-268). -/
def peek (ls : LogSystem) (b : Version) (tag : Tag) (par : Bool) : PeekCursor :=
  match ls.oldLogData with
  | [] => .merged (currentMergedCursor ls tag b par)
  | o0 :: _ =>
    if o0.epochEnd ≤ b then .merged (currentMergedCursor ls tag b par)
    else
      .multi
        (currentMergedCursor ls tag o0.epochEnd par ::
          peekOldCursors b tag par 0 ls.oldLogData)
        (peekOldEnds b ls.oldLogData)

end TagPartitionedLogSystem

lemma peekOldCursors_spec (b : Version) (tag : Tag) (par : Bool) :
    ∀ (olds : List OldLogData) (i : Nat),
      (TagPartitionedLogSystem.peekOldCursors b tag par i olds).length ≤ olds.length ∧
      (∀ j, j < (TagPartitionedLogSystem.peekOldCursors b tag par i olds).length →
        (TagPartitionedLogSystem.peekOldCursors b tag par i olds).getD j default =
          TagPartitionedLogSystem.oldMergedCursor (olds.getD j default) (i + j) tag
            (if j + 1 = olds.length then b
             else max ((olds.getD (j + 1) default).epochEnd) b) par) ∧
      (∀ j, j < (TagPartitionedLogSystem.peekOldCursors b tag par i olds).length →
        b < (olds.getD j default).epochEnd) ∧
      ((TagPartitionedLogSystem.peekOldCursors b tag par i olds).length < olds.length →
        ¬ b < (olds.getD
          (TagPartitionedLogSystem.peekOldCursors b tag par i olds).length
          default).epochEnd) := by
  intro olds
  induction olds with
  | nil =>
    intro i
    refine ⟨by simp [TagPartitionedLogSystem.peekOldCursors], ?_, ?_, ?_⟩ <;>
      simp [TagPartitionedLogSystem.peekOldCursors]
  | cons o rest ih =>
    intro i
    by_cases hb : b < o.epochEnd
    · obtain ⟨ihlen, ihget, ihlt, ihstop⟩ := ih (i + 1)
      have hexp : TagPartitionedLogSystem.peekOldCursors b tag par i (o :: rest) =
          TagPartitionedLogSystem.oldMergedCursor o i tag
            (TagPartitionedLogSystem.nextLowerBound b rest) par ::
            TagPartitionedLogSystem.peekOldCursors b tag par (i + 1) rest := by
        simp [TagPartitionedLogSystem.peekOldCursors, hb]
      refine ⟨?_, ?_, ?_, ?_⟩
      · simp only [hexp, List.length_cons]
        omega
      · intro j hj
        cases j with
        | zero =>
          simp only [hexp, List.getD_cons_zero, List.getD_cons_succ]
          cases rest with
          | nil => simp [TagPartitionedLogSystem.nextLowerBound]
          | cons o2 rest2 => simp [TagPartitionedLogSystem.nextLowerBound]
        | succ j2 =>
          simp only [hexp, List.length_cons] at hj
          have hj2 : j2 < (TagPartitionedLogSystem.peekOldCursors b tag par
              (i + 1) rest).length := by omega
          rw [hexp]
          simp only [List.getD_cons_succ, List.length_cons]
          rw [ihget j2 hj2]
          have hidx : i + 1 + j2 = i + (j2 + 1) := by omega
          rw [hidx]
          by_cases hc : j2 + 1 = rest.length
          · have hc2 : j2 + 1 + 1 = rest.length + 1 := by omega
            simp [hc, hc2]
          · have hc2 : ¬ (j2 + 1 + 1 = rest.length + 1) := by omega
            simp [hc, hc2]
      · intro j hj
        cases j with
        | zero => simpa using hb
        | succ j2 =>
          simp only [hexp, List.length_cons] at hj
          have hj2 : j2 < (TagPartitionedLogSystem.peekOldCursors b tag par
              (i + 1) rest).length := by omega
          simpa using ihlt j2 hj2
      · intro hlt
        simp only [hexp, List.length_cons] at hlt ⊢
        have : (TagPartitionedLogSystem.peekOldCursors b tag par (i + 1) rest).length
            < rest.length := by omega
        simpa using ihstop this
    · have hexp : TagPartitionedLogSystem.peekOldCursors b tag par i (o :: rest) = [] := by
        simp [TagPartitionedLogSystem.peekOldCursors, hb]
      refine ⟨by simp [hexp], ?_, ?_, ?_⟩
      · intro j hj
        simp [hexp] at hj
      · intro j hj
        simp [hexp] at hj
      · intro _
        simpa [hexp] using hb

lemma peekOldEnds_eq_map (b : Version) (tag : Tag) (par : Bool) :
    ∀ (olds : List OldLogData) (i : Nat),
      TagPartitionedLogSystem.peekOldEnds b olds =
        (TagPartitionedLogSystem.peekOldCursors b tag par i olds).map
          (fun c => c.endVersion) := by
  intro olds
  induction olds with
  | nil =>
    intro i
    simp [TagPartitionedLogSystem.peekOldEnds, TagPartitionedLogSystem.peekOldCursors]
  | cons o rest ih =>
    intro i
    by_cases hb : b < o.epochEnd
    · simp [TagPartitionedLogSystem.peekOldEnds,
        TagPartitionedLogSystem.peekOldCursors, hb,
        TagPartitionedLogSystem.oldMergedCursor, ih (i + 1)]
    · simp [TagPartitionedLogSystem.peekOldEnds,
        TagPartitionedLogSystem.peekOldCursors, hb]

/-- C4: `peek(begin, tag, parallel)` on a system with at least one current
TLog.  If there are no old epochs or `begin ≥ old[0].epoch_end`, the result
is a single merged cursor over the current TLogs for
`[begin, get_peek_end())` with primary location `tag mod N` and required
count `N + 1 - replication_factor`.  Otherwise it is a multi-cursor whose
first segment is the current-epoch merged cursor starting at
`old[0].epoch_end`, followed, for each old epoch `j` while
`begin < old[j].epoch_end`, by a merged cursor over old epoch `j` covering
`[max(begin, old[j+1].epoch_end), old[j].epoch_end)`, the lower bound for
the oldest old epoch being `begin` itself. -/
theorem peek_characterization (ls : LogSystem) (b : Version) (tag : Tag)
    (par : Bool) (hN : 0 < ls.logServers.length) :
    ((ls.oldLogData = [] ∨ (ls.oldLogData.headD default).epochEnd ≤ b) →
      TagPartitionedLogSystem.peek ls b tag par = .merged
        { source := .current
          serverCount := ls.logServers.length
          best := ((tag % ls.logServers.length : Nat) : Int)
          requiredCount := (ls.logServers.length : Int) + 1 - ls.tLogReplicationFactor
          tag := tag
          beginVersion := b
          endVersion := TagPartitionedLogSystem.getPeekEnd ls
          parallelGetMore := par
          localities := ls.tLogLocalities
          policy := ls.tLogPolicy
          replicationFactor := ls.tLogReplicationFactor }) ∧
    (∀ o0 rest, ls.oldLogData = o0 :: rest → b < o0.epochEnd →
      ∃ segs : List MergedCursorSpec,
        TagPartitionedLogSystem.peek ls b tag par =
          .multi
            ({ source := .current
               serverCount := ls.logServers.length
               best := ((tag % ls.logServers.length : Nat) : Int)
               requiredCount :=
                 (ls.logServers.length : Int) + 1 - ls.tLogReplicationFactor
               tag := tag
               beginVersion := o0.epochEnd
               endVersion := TagPartitionedLogSystem.getPeekEnd ls
               parallelGetMore := par
               localities := ls.tLogLocalities
               policy := ls.tLogPolicy
               replicationFactor := ls.tLogReplicationFactor } :: segs)
            (segs.map (fun c => c.endVersion)) ∧
        0 < segs.length ∧
        segs.length ≤ ls.oldLogData.length ∧
        (∀ j, j < segs.length →
          segs.getD j default =
            TagPartitionedLogSystem.oldMergedCursor (ls.oldLogData.getD j default)
              j tag
              (if j + 1 = ls.oldLogData.length then b
               else max b ((ls.oldLogData.getD (j + 1) default).epochEnd)) par) ∧
        (∀ j, j < segs.length → b < (ls.oldLogData.getD j default).epochEnd) ∧
        (segs.length < ls.oldLogData.length →
          ¬ b < (ls.oldLogData.getD segs.length default).epochEnd)) := by
  have hNne : ls.logServers.length ≠ 0 := by omega
  constructor
  · intro h
    cases holds : ls.oldLogData with
    | nil =>
      simp [TagPartitionedLogSystem.peek, holds,
        TagPartitionedLogSystem.currentMergedCursor, hNne,
        TagPartitionedLogSystem.bestLocationFor]
    | cons o0 rest =>
      rcases h with h | h
      · exact absurd holds (by simp [h])
      · rw [holds] at h
        simp only [List.headD_cons] at h
        simp [TagPartitionedLogSystem.peek, holds, h,
          TagPartitionedLogSystem.currentMergedCursor, hNne,
          TagPartitionedLogSystem.bestLocationFor]
  · intro o0 rest holds hb
    obtain ⟨hlen, hget, hlt, hstop⟩ := peekOldCursors_spec b tag par ls.oldLogData 0
    refine ⟨TagPartitionedLogSystem.peekOldCursors b tag par 0 ls.oldLogData,
      ?_, ?_, hlen, ?_, hlt, hstop⟩
    · have hnle : ¬ o0.epochEnd ≤ b := not_le.mpr hb
      rw [TagPartitionedLogSystem.peek]
      rw [holds]
      simp only [hnle, if_false]
      rw [← holds, peekOldEnds_eq_map b tag par ls.oldLogData 0]
      simp [TagPartitionedLogSystem.currentMergedCursor, hNne,
        TagPartitionedLogSystem.bestLocationFor]
    · have : 0 < (TagPartitionedLogSystem.peekOldCursors b tag par 0
          ls.oldLogData).length := by
        rw [holds]
        simp [TagPartitionedLogSystem.peekOldCursors, hb]
      exact this
    · intro j hj
      have := hget j hj
      rw [this]
      congr 1
      simp only [Nat.zero_add]
      split
      · rfl
      · exact max_comm _ _

/-- The old epoch of the concrete peek witness: `epoch_end = 1000`. -/
def oldW : OldLogData :=
  { logServers := [{ ident := 3, interf := none }, { ident := 4, interf := none }]
    tLogWriteAntiQuorum := 0
    tLogReplicationFactor := 2
    tLogLocalities := [0, 1]
    tLogPolicy := trivialPolicy
    epochEnd := 1000 }

/-- A two-TLog system with one old epoch ending at 1000, for the C4
witness. -/
def lsPeekW : LogSystem :=
  { logServers := [{ ident := 1, interf := some { uid := 1, locality := 0 } },
                   { ident := 2, interf := some { uid := 2, locality := 1 } }]
    oldLogData := [oldW]
    tLogWriteAntiQuorum := 0
    tLogReplicationFactor := 2
    tLogPolicy := trivialPolicy
    tLogLocalities := [0, 1]
    logSystemType := 2
    recoveryComplete := .invalid
    epochEndVersion := none
    knownCommittedVersion := 0
    epochEndTags := [] }

/-- Witness for C4: `peek(begin = 500, tag = 3)` across the epoch boundary
at 1000 yields a multi-cursor: current epoch from 1000, old epoch
`[500, 1000)`. -/
theorem peek_characterization_witness :
    ∃ segs : List MergedCursorSpec,
      TagPartitionedLogSystem.peek lsPeekW 500 3 true =
        .multi
          ({ source := .current
             serverCount := lsPeekW.logServers.length
             best := ((3 % lsPeekW.logServers.length : Nat) : Int)
             requiredCount :=
               (lsPeekW.logServers.length : Int) + 1 - lsPeekW.tLogReplicationFactor
             tag := 3
             beginVersion := oldW.epochEnd
             endVersion := TagPartitionedLogSystem.getPeekEnd lsPeekW
             parallelGetMore := true
             localities := lsPeekW.tLogLocalities
             policy := lsPeekW.tLogPolicy
             replicationFactor := lsPeekW.tLogReplicationFactor } :: segs)
          (segs.map (fun c => c.endVersion)) ∧
      0 < segs.length ∧
      segs.length ≤ lsPeekW.oldLogData.length ∧
      (∀ j, j < segs.length →
        segs.getD j default =
          TagPartitionedLogSystem.oldMergedCursor
            (lsPeekW.oldLogData.getD j default) j 3
            (if j + 1 = lsPeekW.oldLogData.length then (500 : Version)
             else max 500 ((lsPeekW.oldLogData.getD (j + 1) default).epochEnd))
            true) ∧
      (∀ j, j < segs.length →
        (500 : Version) < (lsPeekW.oldLogData.getD j default).epochEnd) ∧
      (segs.length < lsPeekW.oldLogData.length →
        ¬ (500 : Version) < (lsPeekW.oldLogData.getD segs.length default).epochEnd) :=
  (peek_characterization lsPeekW 500 3 true (by decide)).2 oldW [] rfl (by decide)

/-! ## Epoch-end recovery (the `epochEnd` actor, lines 520-752)

One pass of the recovery loop (lines 591-751) is modelled as a function of:
the previous `DBCoreState`, the per-TLog observation at that instant
(`tLogReply[t]` ready/error and `logFailed[t]->get()`), the `last_end`
state variable, and the knob values.  It returns the log system published
into `outLogSystem` by that pass, if any.

`std::sort(results, sort_by_end())` uses the strict comparator
`a.end < b.end` and is an unstable sort; it is modelled by insertion sort
on `a.end ≤ b.end`.  Both produce a permutation of `results` that is
non-decreasing on `end`, and every value the pass subsequently computes
(the `end` at a sorted index, the fold of `knownCommittedVersion` over all
results, the union of tags) is invariant under the order of tied
elements. -/

/-- `TLogLockResult`: `end`, `knownCommittedVersion` and the tags seen
(`end` is spelled `endVersion`; `end` is reserved in Lean). -/
structure TLogLockResult where
  endVersion : Version
  knownCommittedVersion : Version
  tags : List Tag
deriving DecidableEq, Repr

instance : Inhabited TLogLockResult := ⟨⟨0, 0, []⟩⟩

/-- Per-current-TLog observation at one pass of the loop: `reply = some r`
iff `tLogReply[t].isReady() && !tLogReply[t].isError()` with value `r`;
`failed` is `logFailed[t]->get()`. -/
structure LockStatus where
  reply : Option TLogLockResult
  failed : Bool

/-- A TLog is responsive when its lock reply is ready, is not an error, and
its failure observable is not set (line 600). -/
def isResponsive (s : LockStatus) : Bool :=
  s.reply.isSome && !s.failed

/-- The responsive lock results in TLog index order (line 601). -/
def responsiveResults (sts : List LockStatus) : List TLogLockResult :=
  sts.filterMap (fun s => if s.failed then none else s.reply)

/-- `availableItems` (line 602): localities of the responsive TLogs. -/
def availableLocs (locs : List LocalityData) (sts : List LockStatus) :
    List LocalityData :=
  (locs.zip sts).filterMap (fun p => if isResponsive p.2 then some p.1 else none)

/-- `unResponsiveSet` (line 606): localities of the unresponsive TLogs. -/
def unresponsiveLocs (locs : List LocalityData) (sts : List LockStatus) :
    List LocalityData :=
  (locs.zip sts).filterMap (fun p => if isResponsive p.2 then none else some p.1)

/-- The knob values `SERVER_KNOBS->VERSIONS_PER_SECOND` and
`SERVER_KNOBS->MAX_READ_TRANSACTION_LIFE_VERSIONS`.  Modelled from the
spec: the knob file is an external collaborator, so the values are
parameters. -/
structure Knobs where
  versionsPerSecond : Int
  maxReadTransactionLifeVersions : Int

/-- `bTooManyFailures` (lines 611-636): responsive count at most the
anti-quorum; or at least `replication_factor` unresponsive TLogs whose
locality set satisfies the policy; or, with a positive anti-quorum, some
anti-quorum-sized combination check fails. -/
def bTooManyFailures (prev : DBCoreState) (sts : List LockStatus) : Bool :=
  decide ((responsiveResults sts).length ≤ prev.tLogWriteAntiQuorum) ||
    (decide (prev.tLogReplicationFactor ≤
        (unresponsiveLocs prev.tLogLocalities sts).length) &&
      prev.tLogPolicy.validate (unresponsiveLocs prev.tLogLocalities sts)) ||
    (decide (0 < prev.tLogWriteAntiQuorum) &&
      !(prev.tLogPolicy.validateAllCombinations
          (unresponsiveLocs prev.tLogLocalities sts)
          (availableLocs prev.tLogLocalities sts)
          prev.tLogWriteAntiQuorum))

instance : DecidableRel (fun a b : TLogLockResult => a.endVersion ≤ b.endVersion) :=
  fun a b => inferInstanceAs (Decidable (a.endVersion ≤ b.endVersion))

/-- `std::sort( results.begin(), results.end(), sort_by_end() )`
(line 643), modelled as insertion sort on `end ≤ end` (see the section
comment). -/
def sortByEnd (results : List TLogLockResult) : List TLogLockResult :=
  List.insertionSort (fun a b => a.endVersion ≤ b.endVersion) results

/-- `safe_range_end = tLogReplicationFactor - absent` (lines 644, 647),
with `absent` the number of current TLogs without a responsive result. -/
def safeRangeEnd (prev : DBCoreState) (sts : List LockStatus) : Int :=
  (prev.tLogReplicationFactor : Int) -
    ((sts.length : Int) - ((responsiveResults sts).length : Int))

/-- The `knownCommittedVersion` fold (lines 650-653), starting from
`end - (isSimulated ? 10*VERSIONS_PER_SECOND
                    : MAX_READ_TRANSACTION_LIFE_VERSIONS)`. -/
def knownCommittedOf (results : List TLogLockResult) (endv : Version)
    (knobs : Knobs) (isSimulated : Bool) : Version :=
  results.foldl (fun m r => max m r.knownCommittedVersion)
    (endv - (if isSimulated then 10 * knobs.versionsPerSecond
             else knobs.maxReadTransactionLifeVersions))

/-- The publication condition (line 655): `logSystemType == 2` and either no
prior candidate, or `safe_range_end > 0`, `safe_range_end - 1` in bounds,
and the sorted `results[safe_range_end - 1].end` strictly below the prior
`last_end`. -/
def publishCondition (prev : DBCoreState) (sts : List LockStatus)
    (lastEnd : Option Version) : Bool :=
  decide (prev.logSystemType = 2) &&
    (match lastEnd with
     | none => true
     | some le =>
       decide (0 < safeRangeEnd prev sts) &&
         decide (safeRangeEnd prev sts - 1 <
           ((sortByEnd (responsiveResults sts)).length : Int)) &&
         decide (((sortByEnd (responsiveResults sts)).getD
             (safeRangeEnd prev sts - 1).toNat default).endVersion < le))

/-- `std::set<Tag>` of all tags of all responsive results (lines 696-697),
iterated in sorted order without duplicates. -/
def epochEndTagsOf (results : List TLogLockResult) : List Tag :=
  (List.insertionSort (fun a b : Tag => a ≤ b)
    (results.foldl (fun acc r => acc ++ r.tags) [])).dedup

/-- An `AsyncVar` handle created from a bare `UID`
(`OptionalInterface<TLogInterface>(uid)`, lines 562 and 571).  Rejoins may
later fill the slot; no claim below inspects the slot contents. -/
def idOnlyInterface (u : UID) : OptionalInterface :=
  { ident := u, interf := none }

/-- The old-epoch data rebuilt from `prevState` in the setup of `epochEnd`
(lines 568-580). -/
def oldLogDataOfCore (o : OldTLogCoreData) : OldLogData :=
  { logServers := o.tLogs.map idOnlyInterface
    tLogWriteAntiQuorum := o.tLogWriteAntiQuorum
    tLogReplicationFactor := o.tLogReplicationFactor
    tLogLocalities := o.tLogLocalities
    tLogPolicy := o.tLogPolicy
    epochEnd := o.epochEnd }

/-- One pass of the recovery loop of `epochEnd` (lines 591-751): returns
the log system published by `outLogSystem->set(logSystem)` (line 699), or
`none` when failures are classified as too many or the candidate is not an
improvement. -/
def epochEndPass (prev : DBCoreState) (sts : List LockStatus)
    (lastEnd : Option Version) (knobs : Knobs) (isSimulated : Bool) :
    Option LogSystem :=
  if bTooManyFailures prev sts then none
  else
    let results := sortByEnd (responsiveResults sts)
    let new_safe_range_begin := min prev.tLogWriteAntiQuorum (results.length - 1)
    let endv := (results.getD new_safe_range_begin default).endVersion
    if publishCondition prev sts lastEnd then
      some
        { logServers := prev.tLogs.map idOnlyInterface
          oldLogData := prev.oldTLogData.map oldLogDataOfCore
          tLogWriteAntiQuorum := prev.tLogWriteAntiQuorum
          tLogReplicationFactor := prev.tLogReplicationFactor
          tLogPolicy := prev.tLogPolicy
          tLogLocalities := prev.tLogLocalities
          logSystemType := prev.logSystemType
          recoveryComplete := .invalid
          epochEndVersion := some endv
          knownCommittedVersion := knownCommittedOf results endv knobs isSimulated
          epochEndTags := epochEndTagsOf results }
    else none

instance : IsTotal TLogLockResult (fun a b => a.endVersion ≤ b.endVersion) :=
  ⟨fun a b => le_total a.endVersion b.endVersion⟩

instance : IsTrans TLogLockResult (fun a b => a.endVersion ≤ b.endVersion) :=
  ⟨fun _ _ _ h1 h2 => le_trans h1 h2⟩

/-- C1: in every pass of the recovery loop in which failures are not too
many and a log system is published, the responsive lock results are sorted
ascending by `end` and the published `epoch_end_version` is
`results[min(anti_quorum, responsive_count - 1)].end`. -/
theorem epochEnd_publishes_sorted_min_end (prev : DBCoreState)
    (sts : List LockStatus) (lastEnd : Option Version) (knobs : Knobs)
    (sim : Bool) (p : LogSystem)
    (h : epochEndPass prev sts lastEnd knobs sim = some p) :
    List.Pairwise (fun a b : TLogLockResult => a.endVersion ≤ b.endVersion)
      (sortByEnd (responsiveResults sts)) ∧
    p.epochEndVersion = some ((sortByEnd (responsiveResults sts)).getD
      (min prev.tLogWriteAntiQuorum ((responsiveResults sts).length - 1))
      default).endVersion := by
  constructor
  · exact List.sorted_insertionSort _ _
  · simp only [epochEndPass] at h
    by_cases htm : bTooManyFailures prev sts = true
    · simp [htm] at h
    · simp only [htm, Bool.false_eq_true, if_false] at h
      by_cases hpc : publishCondition prev sts lastEnd = true
      · simp only [hpc, if_true] at h
        rw [← Option.some.inj h]
        simp [sortByEnd, List.length_insertionSort]
      · simp [hpc] at h

/-- A three-TLog previous state (AQ = 0, R = 2) for the C1 witness. -/
def prevW1 : DBCoreState :=
  { tLogs := [1, 2, 3], oldTLogData := [], tLogWriteAntiQuorum := 0,
    tLogReplicationFactor := 2, tLogPolicy := trivialPolicy,
    tLogLocalities := [0, 1, 2], logSystemType := 2 }

/-- All three TLogs responsive with ends 100, 105, 103. -/
def stsW1 : List LockStatus :=
  [{ reply := some ⟨100, 0, []⟩, failed := false },
   { reply := some ⟨105, 0, []⟩, failed := false },
   { reply := some ⟨103, 0, []⟩, failed := false }]

/-- Witness for C1: with ends 100, 105, 103, AQ = 0 and R = 2, the
published `epoch_end_version` is 100. -/
theorem epochEnd_publishes_sorted_min_end_witness :
    ∃ p, epochEndPass prevW1 stsW1 none ⟨1, 5⟩ false = some p ∧
      p.epochEndVersion = some 100 :=
  ⟨(epochEndPass prevW1 stsW1 none ⟨1, 5⟩ false).get rfl,
   (@Option.some_get _ (epochEndPass prevW1 stsW1 none ⟨1, 5⟩ false) rfl).symm,
   ((epochEnd_publishes_sorted_min_end prevW1 stsW1 none ⟨1, 5⟩ false _
       ((@Option.some_get _ (epochEndPass prevW1 stsW1 none ⟨1, 5⟩ false)
         rfl).symm)).2).trans (by decide)⟩

/-- C2 (amended): whenever a pass of the recovery loop publishes a log
system and a previous publication exists (`last_end` present), the
publication condition requires `safe_range_end > 0`, so
`safe_end = replication_factor - absent` is at least 1.  (On the very first
publication `safe_end` can be 0: see the counterexample.) -/
theorem epochEnd_republish_safe_end_pos (prev : DBCoreState)
    (sts : List LockStatus) (le : Version) (knobs : Knobs) (sim : Bool)
    (p : LogSystem)
    (h : epochEndPass prev sts (some le) knobs sim = some p) :
    1 ≤ safeRangeEnd prev sts := by
  simp only [epochEndPass] at h
  by_cases htm : bTooManyFailures prev sts = true
  · simp [htm] at h
  · simp only [htm, Bool.false_eq_true, if_false] at h
    by_cases hpc : publishCondition prev sts (some le) = true
    · simp only [publishCondition, Bool.and_eq_true, decide_eq_true_eq] at hpc
      omega
    · simp [hpc] at h

/-- The C2 counterexample state: N = 3, R = 2, AQ = 0, zone-spanning
policy; TLog zones are 1, 0, 0. -/
def prevCE : DBCoreState :=
  { tLogs := [10, 11, 12], oldTLogData := [], tLogWriteAntiQuorum := 0,
    tLogReplicationFactor := 2, tLogPolicy := acrossTwoZones,
    tLogLocalities := [1, 0, 0], logSystemType := 2 }

/-- Only the first TLog is responsive; the two unresponsive TLogs share
zone 0, so the unresponsive set does not satisfy the policy. -/
def stsCE : List LockStatus :=
  [{ reply := some ⟨100, 0, []⟩, failed := false },
   { reply := none, failed := false },
   { reply := none, failed := false }]

/-- Counterexample to C2 as stated: on a first publication (no `last_end`),
the loop publishes even though `safe_end = replication_factor - absent =
2 - 2 = 0`: two of three TLogs are unresponsive, but both live in one zone,
so the `unResponsiveSet.validate(policy)` clause does not classify the
failures as too many, and the publication condition does not check
`safe_range_end` when no prior candidate exists. -/
theorem epochEnd_first_publish_safe_end_zero :
    (epochEndPass prevCE stsCE none ⟨1, 5⟩ false).isSome = true ∧
      safeRangeEnd prevCE stsCE = 0 := by
  constructor
  · rfl
  · decide

/-- A one-TLog previous state for the C2 and C6 witnesses. -/
def prevW2 : DBCoreState :=
  { tLogs := [1], oldTLogData := [], tLogWriteAntiQuorum := 0,
    tLogReplicationFactor := 1, tLogPolicy := trivialPolicy,
    tLogLocalities := [0], logSystemType := 2 }

/-- The single TLog is responsive with `end = 100`. -/
def stsW2 : List LockStatus :=
  [{ reply := some ⟨100, 0, []⟩, failed := false }]

/-- Witness for C2: a re-publication (prior `last_end = 200`) with
`safe_end = 1`. -/
theorem epochEnd_republish_safe_end_pos_witness :
    (epochEndPass prevW2 stsW2 (some 200) ⟨1, 5⟩ false).isSome = true ∧
      1 ≤ safeRangeEnd prevW2 stsW2 :=
  ⟨rfl,
   epochEnd_republish_safe_end_pos prevW2 stsW2 200 ⟨1, 5⟩ false _
     ((@Option.some_get _ (epochEndPass prevW2 stsW2 (some 200) ⟨1, 5⟩ false)
       rfl).symm)⟩

/-- C6 (amended): whenever a pass publishes a log system with
`epoch_end_version = end`, its `known_committed_version` is the maximum of
`end - horizon` and the largest `knownCommittedVersion` among the responsive
lock results, where the horizon is `MAX_READ_TRANSACTION_LIFE_VERSIONS`
outside simulation but `10 * VERSIONS_PER_SECOND` in simulation (the code
substitutes an upper bound for the possibly-shortened knob; the claim's
"full constant even in simulation" is refuted by the counterexample). -/
theorem epochEnd_knownCommitted (prev : DBCoreState) (sts : List LockStatus)
    (lastEnd : Option Version) (knobs : Knobs) (sim : Bool) (p : LogSystem)
    (h : epochEndPass prev sts lastEnd knobs sim = some p) (e : Version)
    (he : p.epochEndVersion = some e) :
    p.knownCommittedVersion =
      (responsiveResults sts).foldl (fun m r => max m r.knownCommittedVersion)
        (e - (if sim then 10 * knobs.versionsPerSecond
              else knobs.maxReadTransactionLifeVersions)) := by
  have hperm : List.Perm (sortByEnd (responsiveResults sts))
      (responsiveResults sts) := List.perm_insertionSort _ _
  have hfold : ∀ b : Version,
      (sortByEnd (responsiveResults sts)).foldl
          (fun m r => max m r.knownCommittedVersion) b =
        (responsiveResults sts).foldl
          (fun m r => max m r.knownCommittedVersion) b := by
    intro b
    apply List.Perm.foldl_eq' hperm
    intro x _ y _ z
    rw [max_assoc, max_comm x.knownCommittedVersion y.knownCommittedVersion,
      max_assoc]
  simp only [epochEndPass] at h
  by_cases htm : bTooManyFailures prev sts = true
  · simp [htm] at h
  · simp only [htm, Bool.false_eq_true, if_false] at h
    by_cases hpc : publishCondition prev sts lastEnd = true
    · simp only [hpc, if_true] at h
      rw [← Option.some.inj h] at he ⊢
      simp only at he
      have he2 := Option.some.inj he
      simp only [knownCommittedOf, he2, hfold]
    · simp [hpc] at h

/-- Witness for C6: outside simulation, the single responsive result with
`end = 100`, `knownCommittedVersion = 0` gives the fold value. -/
theorem epochEnd_knownCommitted_witness :
    ∃ p, epochEndPass prevW2 stsW2 none ⟨1, 5⟩ false = some p ∧
      p.knownCommittedVersion =
        (responsiveResults stsW2).foldl
          (fun m r => max m r.knownCommittedVersion)
          (100 - (if false then 10 * (⟨1, 5⟩ : Knobs).versionsPerSecond
                  else (⟨1, 5⟩ : Knobs).maxReadTransactionLifeVersions)) :=
  ⟨(epochEndPass prevW2 stsW2 none ⟨1, 5⟩ false).get rfl,
   (@Option.some_get _ (epochEndPass prevW2 stsW2 none ⟨1, 5⟩ false) rfl).symm,
   epochEnd_knownCommitted prevW2 stsW2 none ⟨1, 5⟩ false _
     ((@Option.some_get _ (epochEndPass prevW2 stsW2 none ⟨1, 5⟩ false)
       rfl).symm) 100 rfl⟩

/-- Counterexample to C6 as stated: in simulation the subtracted horizon is
`10 * VERSIONS_PER_SECOND`, not `MAX_READ_TRANSACTION_LIFE_VERSIONS`
(line 650).  With `VERSIONS_PER_SECOND = 1`,
`MAX_READ_TRANSACTION_LIFE_VERSIONS = 5`, a single responsive result
`end = 100, kcv = 0`: the code publishes `known_committed_version =
max(100 - 10, 0) = 90`, while the claim's formula gives
`max(100 - 5, 0) = 95`. -/
theorem epochEnd_simulated_kcv_uses_vps :
    (epochEndPass prevW2 stsW2 none ⟨1, 5⟩ true).map
        (fun p => p.knownCommittedVersion) = some 90 ∧
      (epochEndPass prevW2 stsW2 none ⟨1, 5⟩ true).map
        (fun p => p.epochEndVersion) = some (some 100) ∧
      ¬ (90 : Int) =
        max (100 - (⟨1, 5⟩ : Knobs).maxReadTransactionLifeVersions) 0 := by
  refine ⟨rfl, rfl, by decide⟩

/-- C8: for every configuration, `ILogSystem::fromLogSystemConfig` accepts
exactly `logSystemType ∈ {0, 2}`: type `0` yields the null (empty) log-system
reference, type `2` yields a tag-partitioned log system, and every other
value throws `internal_error`. -/
theorem fromLogSystemConfig_type_dispatch (conf : LogSystemConfig) :
    (conf.logSystemType = 0 → ILogSystem.fromLogSystemConfig conf = .ok none) ∧
    (conf.logSystemType = 2 →
      ∃ ls, ILogSystem.fromLogSystemConfig conf = .ok (some ls)) ∧
    (conf.logSystemType ≠ 0 → conf.logSystemType ≠ 2 →
      ILogSystem.fromLogSystemConfig conf = .error .internal_error) := by
  refine ⟨fun h0 => ?_, fun h2 => ?_, fun h0 h2 => ?_⟩
  · simp [ILogSystem.fromLogSystemConfig, h0]
  · have h0 : conf.logSystemType ≠ 0 := by omega
    refine ⟨TagPartitionedLogSystem.ofConfig conf, ?_⟩
    simp [ILogSystem.fromLogSystemConfig, h0, h2,
      TagPartitionedLogSystem.fromLogSystemConfig, Except.map]
  · simp [ILogSystem.fromLogSystemConfig, h0, h2]

/-- Witness for C8: a configuration with `logSystemType = 7` is rejected
with `internal_error`. -/
theorem fromLogSystemConfig_type_dispatch_witness :
    ILogSystem.fromLogSystemConfig
      { logSystemType := 7, tLogs := [], oldTLogs := [],
        tLogWriteAntiQuorum := 0, tLogReplicationFactor := 1,
        tLogPolicy := trivialPolicy, tLogLocalities := [] } =
      .error .internal_error :=
  (fromLogSystemConfig_type_dispatch _).2.2 (by decide) (by decide)
